import Mathlib

/-!
Verification of the r-sizer repository: a variable-length record
(header `id: u32`, `length: u16`, trailing array of `T`) in one heap
allocation, with byte layout computed via `std::alloc::Layout`.

The embedding models a 64-bit platform: `usize` arithmetic is `Nat`
with explicit bounds against `usizeSize = 2^64` and
`isizeMax = 2^63 - 1`.  Fallible Rust code (`Result<_, LayoutError>`,
`?`, `.unwrap()`, `assert!`) is modelled by the `RsOutcome` type below.
Memory is modelled as a log of typed writes keyed by their byte
offset: a read at an offset returns the most recent write at exactly
that offset, which is adequate because the layout invariants (proved
below) put every written field at a distinct offset.
-/

/-- `usize::MAX + 1` on a 64-bit platform (`2^64`). -/
def usizeSize : Nat := 18446744073709551616

/-- `isize::MAX` on a 64-bit platform (`2^63 - 1`). -/
def isizeMax : Nat := 9223372036854775807

/-- `usize::is_power_of_two`, as Rust computes it (nonzero and
`n & (n - 1) == 0`). -/
def isPow2 (n : Nat) : Bool := n != 0 && (n &&& (n - 1)) == 0

/-- Round `size` up to the next multiple of `align` (for `align ≥ 1`). -/
def roundUp (size align : Nat) : Nat := (size + align - 1) / align * align

/-- `a.checked_add(b)` on `usize`. -/
def checkedAdd (a b : Nat) : Option Nat :=
  if a + b < usizeSize then some (a + b) else none

/-- `std::alloc::Layout`: a size and an alignment. -/
structure Layout where
  size : Nat
  align : Nat
deriving DecidableEq, Repr

/-- `Layout::from_size_align`: requires the alignment to be a power of
two and `size ≤ isize::MAX - (align - 1)`; `None` models `Err(LayoutError)`. -/
def Layout.fromSizeAlign (size align : Nat) : Option Layout :=
  if isPow2 align ∧ size ≤ isizeMax - (align - 1) then some ⟨size, align⟩ else none

/-- `Layout::padding_needed_for`: the padding after `self` needed to
reach the next multiple of `align` (Rust computes it with a power-of-two
bitmask; for power-of-two alignments that equals this rounded-up form,
which is how the Rust documentation specifies the result). -/
def Layout.paddingNeededFor (l : Layout) (align : Nat) : Nat :=
  roundUp l.size align - l.size

/-- `Layout::extend`: append a field with layout `next` after `self`,
returning the combined layout and the field's byte offset. -/
def Layout.extend (l next : Layout) : Option (Layout × Nat) :=
  (checkedAdd l.size (l.paddingNeededFor next.align)).bind fun offset =>
  (checkedAdd offset next.size).bind fun newSize =>
  (Layout.fromSizeAlign newSize (max l.align next.align)).map fun layout =>
  (layout, offset)

/-- `Layout::pad_to_align`: round the size up to the alignment (this
cannot fail for a valid layout, and Rust constructs it unchecked). -/
def Layout.pad_to_align (l : Layout) : Layout :=
  ⟨roundUp l.size l.align, l.align⟩

/-- An element type as the layout algorithm sees it: `size_of` and
`align_of`. -/
structure RustType where
  size : Nat
  align : Nat
deriving DecidableEq, Repr

/-- What Rust guarantees of every real type: power-of-two alignment,
size a multiple of the alignment, size at most `isize::MAX`. -/
def RustType.valid (t : RustType) : Prop :=
  isPow2 t.align = true ∧ t.align ∣ t.size ∧ t.size ≤ isizeMax

instance (t : RustType) : Decidable t.valid := by
  unfold RustType.valid; infer_instance

/-- `Layout::array::<T>(n)`: size `n * size_of::<T>()`, align
`align_of::<T>()`; errs when the total size exceeds
`isize::MAX - (align - 1)`. -/
def Layout.array (t : RustType) (n : Nat) : Option Layout :=
  if t.size = 0 ∨ n ≤ (isizeMax - (t.align - 1)) / t.size then
    some ⟨t.size * n, t.align⟩
  else none

/-- The `FieldValue` union from the source: `#[repr(C)]` union of
`i64`, `i32`, `f32`, `f64`, `i8`, `u32` and `()`, hence 8 bytes with
8-byte alignment. -/
def FieldValue : RustType := ⟨8, 8⟩

/-- Outcome of running a piece of Rust code: normal return,
`Err(LayoutError)`, a panic (from `assert!` or `.unwrap()`), or
undefined behaviour (reading memory that was never written at that
offset with that type). -/
inductive RsOutcome (α : Type) where
  | ok : α → RsOutcome α
  | layoutError : RsOutcome α
  | panic : String → RsOutcome α
  | ub : RsOutcome α
deriving DecidableEq, Repr

/-- The `?` operator on a `Result<_, LayoutError>` modelled as `Option`. -/
def tryOp {α : Type} : Option α → RsOutcome α
  | some a => .ok a
  | none => .layoutError

/-- `.unwrap()` on a `Result<_, LayoutError>`: an `Err` becomes a panic. -/
def rsUnwrap {α : Type} : RsOutcome α → RsOutcome α
  | .ok a => .ok a
  | .layoutError => .panic "called Result.unwrap on an Err value"
  | .panic m => .panic m
  | .ub => .ub

-- The constants of the source.

/-- `BASE_LAYOUT`: `Layout::from_size_align(0, 1)`. -/
def BASE_LAYOUT : Option Layout := Layout.fromSizeAlign 0 1

/-- `ID_LAYOUT`: `Layout::from_size_align(size_of::<u32>(), size_of::<u32>())`. -/
def ID_LAYOUT : Option Layout := Layout.fromSizeAlign 4 4

/-- `LENGTH_LAYOUT`: `Layout::from_size_align(size_of::<u16>(), align_of::<u16>())`. -/
def LENGTH_LAYOUT : Option Layout := Layout.fromSizeAlign 2 2

/-- The result record of `InstanceLayoutInfo::<T>::new` (the
`PhantomData` marker is dropped; the element type is passed
explicitly). -/
structure InstanceLayoutInfo where
  layout : Layout
  id_offset : Nat
  length_offset : Nat
  array_start_offset : Nat
deriving DecidableEq, Repr

/-- `InstanceLayoutInfo::<T>::new(length)`: extend the base layout with
the id field, the length field and the element array, then pad to the
overall alignment.  The `Layout::array(..).unwrap()` of the source is a
panic on `Err`; every other failure propagates via `?`. -/
def InstanceLayoutInfo.new (t : RustType) (length : Nat) : RsOutcome InstanceLayoutInfo :=
  match BASE_LAYOUT with
  | none => .layoutError
  | some layout =>
  match ID_LAYOUT with
  | none => .layoutError
  | some idLayout =>
  match layout.extend idLayout with
  | none => .layoutError
  | some (layout1, id_offset) =>
  match LENGTH_LAYOUT with
  | none => .layoutError
  | some lengthLayout =>
  match layout1.extend lengthLayout with
  | none => .layoutError
  | some (layout2, length_offset) =>
  match Layout.array t length with
  | none => .panic "called Result.unwrap on an Err value"
  | some arrauLayout =>
  match layout2.extend arrauLayout with
  | none => .layoutError
  | some (layout3, array_start_offset) =>
  .ok ⟨layout3.pad_to_align, id_offset, length_offset, array_start_offset⟩

/-- `compute_id_layout_part`: the layout up to and including the id
field, with the id field's offset. -/
def compute_id_layout_part : Option (Layout × Nat) :=
  BASE_LAYOUT.bind fun layout =>
  ID_LAYOUT.bind fun idLayout =>
  layout.extend idLayout

/-- `compute_length_layout_part`: the layout up to and including the
length field, with the length field's offset. -/
def compute_length_layout_part : Option (Layout × Nat) :=
  BASE_LAYOUT.bind fun layout =>
  ID_LAYOUT.bind fun idLayout =>
  (layout.extend idLayout).bind fun p =>
  LENGTH_LAYOUT.bind fun lengthLayout =>
  p.1.extend lengthLayout

/-- `compute_array_layout_part::<T>(length)`: the layout up to and
including the element array, with the array's start offset.  The inner
`Layout::array(..).unwrap()` panics on `Err`. -/
def compute_array_layout_part (t : RustType) (length : Nat) : RsOutcome (Layout × Nat) :=
  match compute_length_layout_part with
  | none => .layoutError
  | some (layout, _length_offset) =>
  match Layout.array t length with
  | none => .panic "called Result.unwrap on an Err value"
  | some arrLayout =>
  match layout.extend arrLayout with
  | none => .layoutError
  | some r => .ok r

-- The record state: a log of typed writes into the single allocation.

/-- One typed value held at a byte offset of the allocation: the `u32`
id, the `u16` length, or one element of `T`. -/
inductive MemVal (T : Type) where
  | u32 : Nat → MemVal T
  | u16 : Nat → MemVal T
  | elem : T → MemVal T
deriving DecidableEq, Repr

/-- Find the most recent write at byte offset `o` (the log is
newest-first). -/
def lookupOffset {T : Type} (o : Nat) : List (Nat × MemVal T) → Option (MemVal T)
  | [] => none
  | p :: rest => if p.1 = o then some p.2 else lookupOffset o rest

/-- The observable contents of the record's allocation: the log of
typed writes, newest first. -/
structure RecState (T : Type) where
  store : List (Nat × MemVal T)
deriving DecidableEq, Repr

/-- `std::ptr::write` of `v` at byte offset `o`. -/
def RecState.writeAt {T : Type} (s : RecState T) (o : Nat) (v : MemVal T) : RecState T :=
  ⟨(o, v) :: s.store⟩

/-- `std::ptr::read` at byte offset `o`: the most recent write there,
or nothing if that offset was never written. -/
def RecState.readAt {T : Type} (s : RecState T) (o : Nat) : Option (MemVal T) :=
  lookupOffset o s.store

/-- Observable construction events: the single allocation, and each
call of the element initializer. -/
inductive Event where
  | alloc : Nat → Nat → Event
  | initCall : Nat → Event
deriving DecidableEq, Repr

/-- Project the index out of an initializer-call event. -/
def Event.initIdx : Event → Option Nat
  | .initCall i => some i
  | _ => none

/-- The element-writing loop of `OwnedInstanceRef::new`: for
`i in 0..n` ascending, call `default_elem_func(i)` and write the result
at `start + i * es`.  Returns the new state and the initializer-call
events in order. -/
def writeElems {T : Type} (s : RecState T) (es start : Nat) (init : Nat → T) :
    Nat → RecState T × List Event
  | 0 => (s, [])
  | n + 1 =>
    let p := writeElems s es start init n
    (p.1.writeAt (start + n * es) (.elem (init n)), p.2 ++ [.initCall n])

/-- Read `n` elements starting at byte offset `start`, stride `es`
(the denotation of the slice built by `from_raw_parts`); reading an
offset that holds no element value is undefined behaviour. -/
def readElems {T : Type} (s : RecState T) (es start : Nat) : Nat → RsOutcome (List T)
  | 0 => .ok []
  | n + 1 =>
    match readElems s es start n with
    | .ok l =>
      match s.readAt (start + n * es) with
      | some (.elem t) => .ok (l ++ [t])
      | _ => .ub
    | .layoutError => .layoutError
    | .panic m => .panic m
    | .ub => .ub

namespace OwnedInstanceRef

/-- `OwnedInstanceRef::<T>::new(id, length, default_elem_func)`: the
three overflow `assert!`s, the layout computation (propagating its
`LayoutError` with `?`), the allocation (modelled as always succeeding,
recorded as an event), the header writes with their offset `assert!`s,
and the ascending element-initialization loop. -/
def new {T : Type} (t : RustType) (id length : Nat) (init : Nat → T) :
    List Event × RsOutcome (RecState T) :=
  if ¬ length ≤ isizeMax then
    ([], .panic "Failed to fit length into isize")
  else if ¬ length * t.size < usizeSize then
    ([], .panic "Overflowed usize with the number of elements")
  else if ¬ length * t.size ≤ isizeMax then
    ([], .panic "Overflowed isize with the number of elements")
  else
    match InstanceLayoutInfo.new t length with
    | .layoutError => ([], .layoutError)
    | .panic m => ([], .panic m)
    | .ub => ([], .ub)
    | .ok info =>
      let allocEv : Event := .alloc info.layout.size info.layout.align
      if ¬ info.id_offset ≤ isizeMax then
        ([allocEv], .panic "Id offset overflows isize")
      else
        let s1 : RecState T := (RecState.mk []).writeAt info.id_offset (.u32 id)
        if ¬ info.length_offset ≤ isizeMax then
          ([allocEv], .panic "Length offset overflows isize")
        else
          let s2 := s1.writeAt info.length_offset (.u16 length)
          if ¬ info.array_start_offset ≤ isizeMax then
            ([allocEv], .panic "Array data start offset overflows isize")
          else if ¬ length ≤ isizeMax then
            ([allocEv], .panic "Length would overflow isize")
          else
            let p := writeElems s2 t.size info.array_start_offset init length
            (allocEv :: p.2, .ok p.1)

/-- `OwnedInstanceRef::id`: unwrap `compute_id_layout_part` and read a
`u32` at its offset. -/
def id {T : Type} (s : RecState T) : RsOutcome Nat :=
  match compute_id_layout_part with
  | none => .panic "called Result.unwrap on an Err value"
  | some (_idLayout, id_offset) =>
    match s.readAt id_offset with
    | some (.u32 v) => .ok v
    | _ => .ub

/-- `OwnedInstanceRef::length`: unwrap `compute_length_layout_part`
and read a `u16` at its offset. -/
def length {T : Type} (s : RecState T) : RsOutcome Nat :=
  match compute_length_layout_part with
  | none => .panic "called Result.unwrap on an Err value"
  | some (_lengthLayout, length_offset) =>
    match s.readAt length_offset with
    | some (.u16 v) => .ok v
    | _ => .ub

/-- `OwnedInstanceRef::<T>::as_slice`: read the current length, then
unwrap `compute_array_layout_part::<FieldValue>(length)` — the source
passes `FieldValue`, not `T`, at line 261 — and view `length` elements
from that offset. -/
def as_slice {T : Type} (t : RustType) (s : RecState T) : RsOutcome (List T) :=
  match OwnedInstanceRef.length s with
  | .ok len =>
    match rsUnwrap (compute_array_layout_part FieldValue len) with
    | .ok (_arrayLayout, array_start_offset) => readElems s t.size array_start_offset len
    | .layoutError => .layoutError
    | .panic m => .panic m
    | .ub => .ub
  | .layoutError => .layoutError
  | .panic m => .panic m
  | .ub => .ub

/-- `OwnedInstanceRef::<T>::as_mut_slice`: as `as_slice` but using
`compute_array_layout_part::<T>(length)`. -/
def as_mut_slice {T : Type} (t : RustType) (s : RecState T) : RsOutcome (List T) :=
  match OwnedInstanceRef.length s with
  | .ok len =>
    match rsUnwrap (compute_array_layout_part t len) with
    | .ok (_arrayLayout, array_start_offset) => readElems s t.size array_start_offset len
    | .layoutError => .layoutError
    | .panic m => .panic m
    | .ub => .ub
  | .layoutError => .layoutError
  | .panic m => .panic m
  | .ub => .ub

/-- `OwnedInstanceRef::<T>::get(i)`: read the current length,
bounds-check `i`, unwrap `compute_array_layout_part::<T>(length)` and
read the element at `array_start_offset + i * size_of::<T>()`. -/
def get {T : Type} (t : RustType) (s : RecState T) (i : Nat) : RsOutcome (Option T) :=
  match OwnedInstanceRef.length s with
  | .ok len =>
    if len ≤ i then .ok none
    else
      match rsUnwrap (compute_array_layout_part t len) with
      | .ok (_arrayLayout, array_start_offset) =>
        match s.readAt (array_start_offset + i * t.size) with
        | some (.elem v) => .ok (some v)
        | _ => .ub
      | .layoutError => .layoutError
      | .panic m => .panic m
      | .ub => .ub
  | .layoutError => .layoutError
  | .panic m => .panic m
  | .ub => .ub

/-- `OwnedInstanceRef::<T>::get_mut(i)`: same bounds check and offset
computation as `get`; the returned exclusive reference is modelled as
the byte offset of the slot it points at. -/
def get_mut {T : Type} (t : RustType) (s : RecState T) (i : Nat) : RsOutcome (Option Nat) :=
  match OwnedInstanceRef.length s with
  | .ok len =>
    if len ≤ i then .ok none
    else
      match rsUnwrap (compute_array_layout_part t len) with
      | .ok (_arrayLayout, array_start_offset) => .ok (some (array_start_offset + i * t.size))
      | .layoutError => .layoutError
      | .panic m => .panic m
      | .ub => .ub
  | .layoutError => .layoutError
  | .panic m => .panic m
  | .ub => .ub

end OwnedInstanceRef

/-- Writing a value through the reference returned by `get_mut`
(`*record.get_mut(i).unwrap() = v`): a `T` write at that slot's byte
offset. -/
def writeThrough {T : Type} (s : RecState T) (off : Nat) (v : T) : RecState T :=
  s.writeAt off (.elem v)

-- Arithmetic facts about rounding.

/-- Rounding up never decreases (for a positive alignment). -/
theorem le_roundUp (a n : Nat) (hn : 1 ≤ n) : a ≤ roundUp a n := by
  have h1 := Nat.div_add_mod (a + n - 1) n
  have h2 : (a + n - 1) % n < n := Nat.mod_lt _ hn
  have key : ∀ m r : Nat, n * m + r = a + n - 1 → r < n → a ≤ n * m := by
    intro m r hmr hr
    omega
  unfold roundUp
  rw [Nat.mul_comm]
  exact key _ _ h1 h2

/-- The rounded-up value is a multiple of the alignment. -/
theorem dvd_roundUp (a n : Nat) : n ∣ roundUp a n := by
  unfold roundUp
  exact ⟨(a + n - 1) / n, Nat.mul_comm _ _⟩

-- Concrete evaluations of the layout constants.

theorem base_layout_eq : BASE_LAYOUT = some ⟨0, 1⟩ := by decide

theorem id_layout_eq : ID_LAYOUT = some ⟨4, 4⟩ := by decide

theorem length_layout_eq : LENGTH_LAYOUT = some ⟨2, 2⟩ := by decide

theorem extend_base_id : Layout.extend ⟨0, 1⟩ ⟨4, 4⟩ = some (⟨4, 4⟩, 0) := by decide

theorem extend_id_length : Layout.extend ⟨4, 4⟩ ⟨2, 2⟩ = some (⟨6, 4⟩, 4) := by decide

theorem compute_id_layout_part_eq : compute_id_layout_part = some (⟨4, 4⟩, 0) := by decide

theorem compute_length_layout_part_eq : compute_length_layout_part = some (⟨6, 4⟩, 4) := by
  decide

/-- `Layout.extend` rewritten as a single conditional: it succeeds
exactly when the combined alignment is a power of two and the combined
size stays within `isize::MAX` adjusted by the alignment. -/
theorem Layout.extend_eq (l next : Layout) :
    l.extend next =
      if isPow2 (max l.align next.align) = true ∧
          l.size + l.paddingNeededFor next.align + next.size ≤
            isizeMax - (max l.align next.align - 1) then
        some (⟨l.size + l.paddingNeededFor next.align + next.size, max l.align next.align⟩,
              l.size + l.paddingNeededFor next.align)
      else none := by
  have hiso : isizeMax < usizeSize := by decide
  unfold Layout.extend checkedAdd Layout.fromSizeAlign
  by_cases h1 : l.size + l.paddingNeededFor next.align < usizeSize
  case pos =>
    rw [if_pos h1, Option.some_bind]
    by_cases h2 : l.size + l.paddingNeededFor next.align + next.size < usizeSize
    case pos =>
      rw [if_pos h2, Option.some_bind]
      by_cases h3 : isPow2 (max l.align next.align) = true ∧
          l.size + l.paddingNeededFor next.align + next.size ≤
            isizeMax - (max l.align next.align - 1)
      case pos =>
        rw [if_pos h3, if_pos h3]
        rfl
      case neg =>
        rw [if_neg h3, if_neg h3]
        rfl
    case neg =>
      have h3 : ¬ (isPow2 (max l.align next.align) = true ∧
          l.size + l.paddingNeededFor next.align + next.size ≤
            isizeMax - (max l.align next.align - 1)) := by
        rintro ⟨-, hle⟩
        omega
      rw [if_neg h2, Option.none_bind, if_neg h3]
  case neg =>
    have h3 : ¬ (isPow2 (max l.align next.align) = true ∧
        l.size + l.paddingNeededFor next.align + next.size ≤
          isizeMax - (max l.align next.align - 1)) := by
      rintro ⟨-, hle⟩
      omega
    rw [if_neg h1, Option.none_bind, if_neg h3]


/-- The extend of the header layout `(size 6, align 4)` with the
element-array layout, in normalized form: the array lands at
`roundUp 6 align_of(T)`. -/
theorem extend_header_array (t : RustType) (length : Nat) (ha : 1 ≤ t.align) :
    Layout.extend ⟨6, 4⟩ ⟨t.size * length, t.align⟩ =
      if isPow2 (max 4 t.align) = true ∧
          roundUp 6 t.align + t.size * length ≤ isizeMax - (max 4 t.align - 1) then
        some (⟨roundUp 6 t.align + t.size * length, max 4 t.align⟩, roundUp 6 t.align)
      else none := by
  have h6 := le_roundUp 6 t.align ha
  have hp : (6 : Nat) + Layout.paddingNeededFor ⟨6, 4⟩ t.align = roundUp 6 t.align := by
    show 6 + (roundUp 6 t.align - 6) = roundUp 6 t.align
    omega
  rw [Layout.extend_eq]
  dsimp only
  rw [hp]

/-- Shape of a successful `InstanceLayoutInfo::new`: the array layout
and final extend computed along the way, and the resulting offsets —
id at 0, length at 4, array at `roundUp 6 align_of(T)` — with the
padded total size. -/
theorem InstanceLayoutInfo.new_ok_layout {t : RustType} {length : Nat} {info : InstanceLayoutInfo}
    (ha : 1 ≤ t.align) (h : InstanceLayoutInfo.new t length = .ok info) :
    Layout.array t length = some ⟨t.size * length, t.align⟩ ∧
    Layout.extend ⟨6, 4⟩ ⟨t.size * length, t.align⟩ =
      some (⟨roundUp 6 t.align + t.size * length, max 4 t.align⟩, roundUp 6 t.align) ∧
    info = ⟨⟨roundUp (roundUp 6 t.align + t.size * length) (max 4 t.align), max 4 t.align⟩,
            0, 4, roundUp 6 t.align⟩ := by
  unfold InstanceLayoutInfo.new at h
  rw [base_layout_eq] at h
  simp only [] at h
  rw [id_layout_eq] at h
  simp only [] at h
  rw [extend_base_id] at h
  simp only [] at h
  rw [length_layout_eq] at h
  simp only [] at h
  rw [extend_id_length] at h
  simp only [] at h
  cases harr : Layout.array t length with
  | none =>
    rw [harr] at h
    exact absurd h (by simp)
  | some arrL =>
    rw [harr] at h
    simp only [] at h
    have harrL : arrL = ⟨t.size * length, t.align⟩ := by
      unfold Layout.array at harr
      split at harr
      · exact (Option.some_inj.mp harr).symm
      · exact absurd harr (by simp)
    subst harrL
    cases hext : Layout.extend ⟨6, 4⟩ ⟨t.size * length, t.align⟩ with
    | none =>
      rw [hext] at h
      exact absurd h (by simp)
    | some r =>
      rw [hext] at h
      simp only [] at h
      rw [extend_header_array t length ha] at hext
      split at hext
      case isFalse => exact absurd hext (by simp)
      case isTrue hc =>
        have hre : r = (⟨roundUp 6 t.align + t.size * length, max 4 t.align⟩,
            roundUp 6 t.align) := (Option.some_inj.mp hext).symm
        subst hre
        refine ⟨rfl, rfl, ?_⟩
        injection h with h2
        rw [← h2]
        rfl

-- Store lemmas.

/-- Reading back right after writing at the same offset. -/
theorem readAt_writeAt_same {T : Type} (s : RecState T) (o : Nat) (v : MemVal T) :
    (s.writeAt o v).readAt o = some v := by
  simp [RecState.writeAt, RecState.readAt, lookupOffset]

/-- A write at a different offset does not change what a read sees. -/
theorem readAt_writeAt_ne {T : Type} (s : RecState T) (o o' : Nat) (v : MemVal T)
    (h : o ≠ o') : (s.writeAt o v).readAt o' = s.readAt o' := by
  simp [RecState.writeAt, RecState.readAt, lookupOffset, h]

/-- The element-initialization loop calls the initializer on exactly
the indices `0, 1, …, n-1`, in that order. -/
theorem writeElems_events {T : Type} (s : RecState T) (es start : Nat) (init : Nat → T)
    (n : Nat) : (writeElems s es start init n).2 = (List.range n).map Event.initCall := by
  induction n with
  | zero => rfl
  | succ k ih => simp [writeElems, ih, List.range_succ]

/-- The element-initialization loop leaves offsets outside the element
slots untouched. -/
theorem writeElems_readAt_out {T : Type} (s : RecState T) (es start : Nat) (init : Nat → T)
    (n o : Nat) (ho : ∀ i, i < n → o ≠ start + i * es) :
    ((writeElems s es start init n).1).readAt o = s.readAt o := by
  induction n with
  | zero => rfl
  | succ k ih =>
    show ((writeElems s es start init k).1.writeAt (start + k * es)
      (.elem (init k))).readAt o = s.readAt o
    rw [readAt_writeAt_ne _ _ _ _ (fun hc => ho k (Nat.lt_succ_self k) hc.symm)]
    exact ih fun i hi => ho i (Nat.lt_succ_of_lt hi)

/-- After the element-initialization loop, slot `i` holds exactly the
value the initializer returned for `i` (for a positive element size,
so that distinct slots have distinct offsets). -/
theorem writeElems_readAt_in {T : Type} (s : RecState T) (es start : Nat) (init : Nat → T)
    (n : Nat) (hes : 1 ≤ es) (i : Nat) (hi : i < n) :
    ((writeElems s es start init n).1).readAt (start + i * es) = some (.elem (init i)) := by
  induction n with
  | zero => omega
  | succ k ih =>
    show ((writeElems s es start init k).1.writeAt (start + k * es)
      (.elem (init k))).readAt (start + i * es) = some (.elem (init i))
    by_cases hik : i = k
    · subst hik
      exact readAt_writeAt_same _ _ _
    · rw [readAt_writeAt_ne]
      · exact ih (by omega)
      · intro hc
        have h1 : k * es = i * es := by omega
        exact hik ((Nat.eq_of_mul_eq_mul_right hes h1).symm)

/-- Shape of a successful `OwnedInstanceRef::new`: the layout
computation succeeded with the canonical offsets, the only events are
the single allocation followed by the ascending initializer calls, and
the final state is the header writes followed by the element writes. -/
theorem OwnedInstanceRef.new_ok_store {T : Type} {t : RustType} {id0 length : Nat} {init : Nat → T}
    {evs : List Event} {s : RecState T} (ha : 1 ≤ t.align)
    (h : OwnedInstanceRef.new t id0 length init = (evs, .ok s)) :
    Layout.array t length = some ⟨t.size * length, t.align⟩ ∧
    Layout.extend ⟨6, 4⟩ ⟨t.size * length, t.align⟩ =
      some (⟨roundUp 6 t.align + t.size * length, max 4 t.align⟩, roundUp 6 t.align) ∧
    evs = .alloc (roundUp (roundUp 6 t.align + t.size * length) (max 4 t.align))
            (max 4 t.align) :: (List.range length).map Event.initCall ∧
    s = (writeElems ⟨[(4, .u16 length), (0, .u32 id0)]⟩ t.size (roundUp 6 t.align)
          init length).1 := by
  unfold OwnedInstanceRef.new at h
  split at h
  case isTrue => simp at h
  case isFalse =>
    split at h
    case isTrue => simp at h
    case isFalse =>
      split at h
      case isTrue => simp at h
      case isFalse =>
        cases hinfo : InstanceLayoutInfo.new t length with
        | layoutError => rw [hinfo] at h; simp at h
        | panic m => rw [hinfo] at h; simp at h
        | ub => rw [hinfo] at h; simp at h
        | ok info =>
          rw [hinfo] at h
          simp only [] at h
          obtain ⟨harr, hext, hinfoEq⟩ := InstanceLayoutInfo.new_ok_layout ha hinfo
          subst hinfoEq
          split at h
          case isTrue => simp at h
          case isFalse =>
            split at h
            case isTrue => simp at h
            case isFalse =>
              split at h
              case isTrue => simp at h
              case isFalse =>
                simp only [Prod.mk.injEq, RsOutcome.ok.injEq] at h
                refine ⟨harr, hext, ?_, h.2.symm⟩
                rw [← h.1, writeElems_events]

/-- After construction the header slots still hold the id and length
(the element writes land at offsets `≥ 6` and cannot shadow them). -/
theorem new_state_header {T : Type} {t : RustType} {id0 length : Nat} {init : Nat → T}
    {evs : List Event} {s : RecState T} (ha : 1 ≤ t.align)
    (h : OwnedInstanceRef.new t id0 length init = (evs, .ok s)) :
    s.readAt 0 = some (.u32 id0) ∧ s.readAt 4 = some (.u16 length) := by
  obtain ⟨-, -, -, hs⟩ := OwnedInstanceRef.new_ok_store ha h
  subst hs
  have h6 : 6 ≤ roundUp 6 t.align := le_roundUp 6 t.align ha
  constructor
  · rw [writeElems_readAt_out]
    · rfl
    · intro i _
      have : roundUp 6 t.align ≤ roundUp 6 t.align + i * t.size := Nat.le_add_right _ _
      omega
  · rw [writeElems_readAt_out]
    · rfl
    · intro i _
      have : roundUp 6 t.align ≤ roundUp 6 t.align + i * t.size := Nat.le_add_right _ _
      omega

/-- `length()` returns the stored length on any state whose offset-4
slot holds it. -/
theorem length_of_readAt {T : Type} {s : RecState T} {n : Nat}
    (h : s.readAt 4 = some (.u16 n)) : OwnedInstanceRef.length s = .ok n := by
  unfold OwnedInstanceRef.length
  rw [compute_length_layout_part_eq]
  simp only [] 
  rw [h]

/-- `id()` returns the stored id on any state whose offset-0 slot
holds it. -/
theorem id_of_readAt {T : Type} {s : RecState T} {n : Nat}
    (h : s.readAt 0 = some (.u32 n)) : OwnedInstanceRef.id s = .ok n := by
  unfold OwnedInstanceRef.id
  rw [compute_id_layout_part_eq]
  simp only [] 
  rw [h]

/-- `compute_array_layout_part` succeeds, with the array at
`roundUp 6 align_of(T)`, whenever the array layout and header extend
succeed (as they did during a successful construction). -/
theorem compute_array_layout_part_ok {t : RustType} {length : Nat}
    (h1 : Layout.array t length = some ⟨t.size * length, t.align⟩)
    (h2 : Layout.extend ⟨6, 4⟩ ⟨t.size * length, t.align⟩ =
      some (⟨roundUp 6 t.align + t.size * length, max 4 t.align⟩, roundUp 6 t.align)) :
    compute_array_layout_part t length =
      .ok (⟨roundUp 6 t.align + t.size * length, max 4 t.align⟩, roundUp 6 t.align) := by
  unfold compute_array_layout_part
  rw [compute_length_layout_part_eq]
  simp only [] 
  rw [h1]
  simp only [] 
  rw [h2]

/-- A valid Rust type has a positive alignment. -/
theorem RustType.align_pos {t : RustType} (hv : t.valid) : 1 ≤ t.align := by
  obtain ⟨hp, -, -⟩ := hv
  by_contra hc
  have h0 : t.align = 0 := by omega
  rw [h0] at hp
  exact absurd hp (by decide)

/-- The layout a C-style sequential-field algorithm produces, as a
record of total size, total alignment and the three field offsets. -/
structure CLayout where
  total_size : Nat
  total_align : Nat
  id_offset : Nat
  length_offset : Nat
  array_offset : Nat
deriving DecidableEq, Repr

/-- The C-style sequential-field layout algorithm, following the
spec's words: start from size 0 / align 1; extend with the id field
(4 bytes, 4-aligned), then the length field (2 bytes, 2-aligned), then
an array of `length` elements of `T` (aligned to `T`'s alignment,
sized `length * sizeof(T)`); extending rounds the current size up to
the field's alignment to get the offset, and the overall alignment is
the maximum of all field alignments; finally pad the size up to the
overall alignment. -/
def cStyleLayout (es ea length : Nat) : CLayout :=
  let size0 := 0
  let align0 := 1
  let id_offset := roundUp size0 4
  let size1 := id_offset + 4
  let align1 := max align0 4
  let length_offset := roundUp size1 2
  let size2 := length_offset + 2
  let align2 := max align1 2
  let array_offset := roundUp size2 ea
  let size3 := array_offset + length * es
  let align3 := max align2 ea
  ⟨roundUp size3 align3, align3, id_offset, length_offset, array_offset⟩

/-- The C-style algorithm in closed form. -/
theorem cStyleLayout_eq (es ea length : Nat) :
    cStyleLayout es ea length =
      ⟨roundUp (roundUp 6 ea + length * es) (max 4 ea), max 4 ea, 0, 4, roundUp 6 ea⟩ := rfl

/-- C1: for every element type and every length in `[0, 65535]` for
which the computation succeeds (no arithmetic overflow), the layout
computed by `InstanceLayoutInfo::new` equals — size, alignment and all
three offsets — the result of the C-style sequential layout algorithm
for `struct { id: u32; length: u16; data: T[length] }`. -/
theorem c1_new_matches_c_style (t : RustType) (hv : t.valid) (length : Nat)
    (hlen : length ≤ 65535) (info : InstanceLayoutInfo)
    (h : InstanceLayoutInfo.new t length = .ok info) :
    info.layout.size = (cStyleLayout t.size t.align length).total_size ∧
    info.layout.align = (cStyleLayout t.size t.align length).total_align ∧
    info.id_offset = (cStyleLayout t.size t.align length).id_offset ∧
    info.length_offset = (cStyleLayout t.size t.align length).length_offset ∧
    info.array_start_offset = (cStyleLayout t.size t.align length).array_offset := by
  obtain ⟨-, -, hinfo⟩ := InstanceLayoutInfo.new_ok_layout (RustType.align_pos hv) h
  subst hinfo
  rw [cStyleLayout_eq]
  refine ⟨?_, rfl, rfl, rfl, rfl⟩
  show roundUp (roundUp 6 t.align + t.size * length) (max 4 t.align) =
    roundUp (roundUp 6 t.align + length * t.size) (max 4 t.align)
  rw [Nat.mul_comm]

/-- Witness for C1 at the concrete type `FieldValue` and length 4. -/
theorem c1_new_matches_c_style_witness :
    FieldValue.valid ∧ (4 : Nat) ≤ 65535 ∧
    InstanceLayoutInfo.new FieldValue 4 = .ok ⟨⟨40, 8⟩, 0, 4, 8⟩ ∧
    ((⟨⟨40, 8⟩, 0, 4, 8⟩ : InstanceLayoutInfo).layout.size =
        (cStyleLayout FieldValue.size FieldValue.align 4).total_size ∧
      (⟨⟨40, 8⟩, 0, 4, 8⟩ : InstanceLayoutInfo).layout.align =
        (cStyleLayout FieldValue.size FieldValue.align 4).total_align ∧
      (⟨⟨40, 8⟩, 0, 4, 8⟩ : InstanceLayoutInfo).id_offset =
        (cStyleLayout FieldValue.size FieldValue.align 4).id_offset ∧
      (⟨⟨40, 8⟩, 0, 4, 8⟩ : InstanceLayoutInfo).length_offset =
        (cStyleLayout FieldValue.size FieldValue.align 4).length_offset ∧
      (⟨⟨40, 8⟩, 0, 4, 8⟩ : InstanceLayoutInfo).array_start_offset =
        (cStyleLayout FieldValue.size FieldValue.align 4).array_offset) :=
  ⟨by decide, by decide, by decide,
    c1_new_matches_c_style FieldValue (by decide) 4 (by decide) _ (by decide)⟩

/-- C8: invariants of every successfully computed layout — offsets
strictly increase, each field's byte range fits before the next and
inside the allocation, the array offset is aligned to the element
type, and the total size is a multiple of the overall alignment. -/
theorem c8_layout_invariants (t : RustType) (hv : t.valid) (length : Nat)
    (info : InstanceLayoutInfo) (h : InstanceLayoutInfo.new t length = .ok info) :
    info.id_offset < info.length_offset ∧
    info.length_offset < info.array_start_offset ∧
    info.array_start_offset ≤ info.layout.size ∧
    info.id_offset + 4 ≤ info.length_offset ∧
    info.length_offset + 2 ≤ info.array_start_offset ∧
    info.array_start_offset + t.size * length ≤ info.layout.size ∧
    t.align ∣ info.array_start_offset ∧
    info.layout.align ∣ info.layout.size := by
  have ha := RustType.align_pos hv
  obtain ⟨-, -, hinfo⟩ := InstanceLayoutInfo.new_ok_layout ha h
  subst hinfo
  dsimp only
  have h6 : 6 ≤ roundUp 6 t.align := le_roundUp 6 t.align ha
  have hma : 1 ≤ max 4 t.align := le_trans (by omega) (Nat.le_max_left 4 t.align)
  have hpad : roundUp 6 t.align + t.size * length ≤
      roundUp (roundUp 6 t.align + t.size * length) (max 4 t.align) :=
    le_roundUp _ _ hma
  exact ⟨by omega, by omega, by omega, by omega, by omega, by omega,
    dvd_roundUp 6 t.align, dvd_roundUp _ _⟩

/-- Witness for C8 at the concrete type `FieldValue` and length 4. -/
theorem c8_layout_invariants_witness :
    FieldValue.valid ∧
    InstanceLayoutInfo.new FieldValue 4 = .ok ⟨⟨40, 8⟩, 0, 4, 8⟩ ∧
    ((⟨⟨40, 8⟩, 0, 4, 8⟩ : InstanceLayoutInfo).id_offset <
        (⟨⟨40, 8⟩, 0, 4, 8⟩ : InstanceLayoutInfo).length_offset ∧
      (⟨⟨40, 8⟩, 0, 4, 8⟩ : InstanceLayoutInfo).length_offset <
        (⟨⟨40, 8⟩, 0, 4, 8⟩ : InstanceLayoutInfo).array_start_offset ∧
      (⟨⟨40, 8⟩, 0, 4, 8⟩ : InstanceLayoutInfo).array_start_offset ≤
        (⟨⟨40, 8⟩, 0, 4, 8⟩ : InstanceLayoutInfo).layout.size ∧
      (⟨⟨40, 8⟩, 0, 4, 8⟩ : InstanceLayoutInfo).id_offset + 4 ≤
        (⟨⟨40, 8⟩, 0, 4, 8⟩ : InstanceLayoutInfo).length_offset ∧
      (⟨⟨40, 8⟩, 0, 4, 8⟩ : InstanceLayoutInfo).length_offset + 2 ≤
        (⟨⟨40, 8⟩, 0, 4, 8⟩ : InstanceLayoutInfo).array_start_offset ∧
      (⟨⟨40, 8⟩, 0, 4, 8⟩ : InstanceLayoutInfo).array_start_offset + FieldValue.size * 4 ≤
        (⟨⟨40, 8⟩, 0, 4, 8⟩ : InstanceLayoutInfo).layout.size ∧
      FieldValue.align ∣ (⟨⟨40, 8⟩, 0, 4, 8⟩ : InstanceLayoutInfo).array_start_offset ∧
      (⟨⟨40, 8⟩, 0, 4, 8⟩ : InstanceLayoutInfo).layout.align ∣
        (⟨⟨40, 8⟩, 0, 4, 8⟩ : InstanceLayoutInfo).layout.size) :=
  ⟨by decide, by decide, c8_layout_invariants FieldValue (by decide) 4 _ (by decide)⟩

/-- C9: the header offsets are constants independent of the element
type and the length — id at 0, length at 4 — and
`compute_id_layout_part` / `compute_length_layout_part` return those
same constants. -/
theorem c9_header_offsets_constant (t : RustType) (hv : t.valid) (length : Nat)
    (info : InstanceLayoutInfo) (h : InstanceLayoutInfo.new t length = .ok info) :
    info.id_offset = 0 ∧ info.length_offset = 4 ∧
    compute_id_layout_part = some (⟨4, 4⟩, 0) ∧
    compute_length_layout_part = some (⟨6, 4⟩, 4) := by
  obtain ⟨-, -, hinfo⟩ := InstanceLayoutInfo.new_ok_layout (RustType.align_pos hv) h
  subst hinfo
  exact ⟨rfl, rfl, compute_id_layout_part_eq, compute_length_layout_part_eq⟩

/-- Witness for C9 at the concrete type `FieldValue` and length 4. -/
theorem c9_header_offsets_constant_witness :
    FieldValue.valid ∧
    InstanceLayoutInfo.new FieldValue 4 = .ok ⟨⟨40, 8⟩, 0, 4, 8⟩ ∧
    ((⟨⟨40, 8⟩, 0, 4, 8⟩ : InstanceLayoutInfo).id_offset = 0 ∧
      (⟨⟨40, 8⟩, 0, 4, 8⟩ : InstanceLayoutInfo).length_offset = 4 ∧
      compute_id_layout_part = some (⟨4, 4⟩, 0) ∧
      compute_length_layout_part = some (⟨6, 4⟩, 4)) :=
  ⟨by decide, by decide, c9_header_offsets_constant FieldValue (by decide) 4 _ (by decide)⟩

/-- C10: for the concrete element type `FieldValue` (8 bytes,
8-aligned), the layout computation is total over all `u16` lengths:
`InstanceLayoutInfo::<FieldValue>::new` returns `Ok` for every
`length < 65536`, so the `LayoutError` branch, the `Layout::array`
unwrap and the overflow assertions in `OwnedInstanceRef::new` are
unreachable and construction never fails for layout reasons. -/
theorem c10_fieldvalue_layout_total (T : Type) (id0 length : Nat) (init : Nat → T)
    (hlen : length < 65536) :
    InstanceLayoutInfo.new FieldValue length =
      .ok ⟨⟨roundUp (8 + 8 * length) 8, 8⟩, 0, 4, 8⟩ ∧
    (OwnedInstanceRef.new FieldValue id0 length init).2 =
      .ok (writeElems ⟨[(4, .u16 length), (0, .u32 id0)]⟩ 8 8 init length).1 := by
  have hcond : FieldValue.size = 0 ∨
      length ≤ (isizeMax - (FieldValue.align - 1)) / FieldValue.size := by
    right
    show length ≤ 1152921504606846975
    omega
  have harr : Layout.array FieldValue length = some ⟨8 * length, 8⟩ := by
    unfold Layout.array
    rw [if_pos hcond]
    rfl
  have hextc : isPow2 (max 4 FieldValue.align) = true ∧
      roundUp 6 FieldValue.align + FieldValue.size * length ≤
        isizeMax - (max 4 FieldValue.align - 1) := by
    refine ⟨by decide, ?_⟩
    show 8 + 8 * length ≤ 9223372036854775800
    omega
  have hext : Layout.extend ⟨6, 4⟩ ⟨8 * length, 8⟩ = some (⟨8 + 8 * length, 8⟩, 8) := by
    have h0 := extend_header_array FieldValue length (by decide)
    rw [if_pos hextc] at h0
    exact h0
  have hfirst : InstanceLayoutInfo.new FieldValue length =
      .ok ⟨⟨roundUp (8 + 8 * length) 8, 8⟩, 0, 4, 8⟩ := by
    unfold InstanceLayoutInfo.new
    rw [base_layout_eq]
    simp only []
    rw [id_layout_eq]
    simp only []
    rw [extend_base_id]
    simp only []
    rw [length_layout_eq]
    simp only []
    rw [extend_id_length]
    simp only []
    rw [harr]
    simp only []
    rw [hext]
    rfl
  refine ⟨hfirst, ?_⟩
  have k1 : ¬ ¬ length ≤ isizeMax := by
    intro hc
    apply hc
    show length ≤ 9223372036854775807
    omega
  have k2 : ¬ ¬ length * FieldValue.size < usizeSize := by
    intro hc
    apply hc
    show length * 8 < 18446744073709551616
    omega
  have k3 : ¬ ¬ length * FieldValue.size ≤ isizeMax := by
    intro hc
    apply hc
    show length * 8 ≤ 9223372036854775807
    omega
  unfold OwnedInstanceRef.new
  rw [if_neg k1, if_neg k2, if_neg k3, hfirst]
  dsimp only
  rw [if_neg (by decide), if_neg (by decide), if_neg (by decide), if_neg k1]
  rfl

/-- Witness for C10 at the extreme length 65535. -/
theorem c10_fieldvalue_layout_total_witness :
    (65535 : Nat) < 65536 ∧
    (InstanceLayoutInfo.new FieldValue 65535 =
        .ok ⟨⟨roundUp (8 + 8 * 65535) 8, 8⟩, 0, 4, 8⟩ ∧
      (OwnedInstanceRef.new FieldValue 9 65535 (fun _ => ())).2 =
        .ok (writeElems ⟨[(4, .u16 65535), (0, .u32 9)]⟩ 8 8 (fun _ => ()) 65535).1) :=
  ⟨by decide, c10_fieldvalue_layout_total Unit 9 65535 (fun _ => ()) (by decide)⟩

/-- C4: header round-trip — constructing a record with a given id and
length and immediately reading `id()` / `length()` returns exactly
those values. -/
theorem c4_header_roundtrip (T : Type) (t : RustType) (hv : t.valid) (id0 length : Nat)
    (hid : id0 < 4294967296) (hlen : length < 65536) (init : Nat → T)
    (evs : List Event) (s : RecState T)
    (h : OwnedInstanceRef.new t id0 length init = (evs, .ok s)) :
    OwnedInstanceRef.id s = .ok id0 ∧ OwnedInstanceRef.length s = .ok length := by
  obtain ⟨h0, h4⟩ := new_state_header (RustType.align_pos hv) h
  exact ⟨id_of_readAt h0, length_of_readAt h4⟩

/-- Witness for C4: id 5, length 1, unit elements. -/
theorem c4_header_roundtrip_witness :
    FieldValue.valid ∧ (5 : Nat) < 4294967296 ∧ (1 : Nat) < 65536 ∧
    OwnedInstanceRef.new FieldValue 5 1 (fun _ => ()) =
      ([.alloc 16 8, .initCall 0], .ok ⟨[(8, .elem ()), (4, .u16 1), (0, .u32 5)]⟩) ∧
    (OwnedInstanceRef.id (⟨[(8, .elem ()), (4, .u16 1), (0, .u32 5)]⟩ : RecState Unit) =
        .ok 5 ∧
      OwnedInstanceRef.length (⟨[(8, .elem ()), (4, .u16 1), (0, .u32 5)]⟩ : RecState Unit) =
        .ok 1) :=
  ⟨by decide, by decide, by decide, by decide,
    c4_header_roundtrip Unit FieldValue (by decide) 5 1 (by decide) (by decide) (fun _ => ())
      [.alloc 16 8, .initCall 0] ⟨[(8, .elem ()), (4, .u16 1), (0, .u32 5)]⟩ (by decide)⟩

/-- If `length()` returned `n`, the offset-4 slot holds `n` as a `u16`. -/
theorem readAt_of_length_ok {T : Type} {s : RecState T} {n : Nat}
    (h : OwnedInstanceRef.length s = .ok n) : s.readAt 4 = some (.u16 n) := by
  unfold OwnedInstanceRef.length at h
  rw [compute_length_layout_part_eq] at h
  simp only [] at h
  cases hr : s.readAt 4 with
  | none => rw [hr] at h; exact absurd h (by simp)
  | some mv =>
    rw [hr] at h
    cases mv with
    | u32 v => exact absurd h (by simp)
    | u16 v =>
      simp only [] at h
      injection h with h2
      rw [h2]
    | elem v => exact absurd h (by simp)

/-- The array start offset produced by `compute_array_layout_part` is
at least 6 (it extends the 6-byte header). -/
theorem compute_array_layout_part_offset {t : RustType} {len : Nat} {L : Layout} {off : Nat}
    (h : compute_array_layout_part t len = .ok (L, off)) : 6 ≤ off := by
  unfold compute_array_layout_part at h
  rw [compute_length_layout_part_eq] at h
  simp only [] at h
  cases harr : Layout.array t len with
  | none => rw [harr] at h; exact absurd h (by simp)
  | some arrL =>
    rw [harr] at h
    simp only [] at h
    cases hext : Layout.extend ⟨6, 4⟩ arrL with
    | none => rw [hext] at h; exact absurd h (by simp)
    | some r =>
      rw [hext] at h
      simp only [] at h
      injection h with h2
      subst h2
      rw [Layout.extend_eq] at hext
      split at hext
      case isFalse => exact absurd hext (by simp)
      case isTrue =>
        have h3 := congrArg Prod.snd (Option.some_inj.mp hext)
        dsimp only at h3
        omega

/-- Evaluate `get` at an in-bounds index when the slot holds an
element value. -/
theorem get_eval_some {T : Type} {t : RustType} {s : RecState T} {len i : Nat} {v : T}
    (hlen : OwnedInstanceRef.length s = .ok len) (hi : ¬ len ≤ i)
    {L : Layout} {start : Nat} (hC : compute_array_layout_part t len = .ok (L, start))
    (hread : s.readAt (start + i * t.size) = some (.elem v)) :
    OwnedInstanceRef.get t s i = .ok (some v) := by
  unfold OwnedInstanceRef.get
  rw [hlen]
  simp only []
  rw [if_neg hi, hC]
  simp only [rsUnwrap]
  rw [hread]

/-- Two states that agree on slot `j`'s offset and report the same
length give the same `get` at `j`. -/
theorem get_congr_read {T : Type} {t : RustType} {s s' : RecState T} {len : Nat} (j : Nat)
    (h1 : OwnedInstanceRef.length s = .ok len) (h2 : OwnedInstanceRef.length s' = .ok len)
    {L : Layout} {start : Nat} (hC : compute_array_layout_part t len = .ok (L, start))
    (hread : s'.readAt (start + j * t.size) = s.readAt (start + j * t.size)) :
    OwnedInstanceRef.get t s' j = OwnedInstanceRef.get t s j := by
  unfold OwnedInstanceRef.get
  rw [h1, h2]
  simp only []
  by_cases hj : len ≤ j
  · rw [if_pos hj, if_pos hj]
  · rw [if_neg hj, if_neg hj, hC]
    simp only [rsUnwrap]
    rw [hread]

/-- Shape of a successful `get_mut`: the length read, the bounds
check, the array layout computation and the returned slot offset. -/
theorem get_mut_ok_elim {T : Type} {t : RustType} {s : RecState T} {i off : Nat}
    (h : OwnedInstanceRef.get_mut t s i = .ok (some off)) :
    ∃ len L start, OwnedInstanceRef.length s = .ok len ∧ ¬ len ≤ i ∧
      compute_array_layout_part t len = .ok (L, start) ∧ off = start + i * t.size := by
  unfold OwnedInstanceRef.get_mut at h
  cases hL : OwnedInstanceRef.length s with
  | ok len =>
    rw [hL] at h
    simp only [] at h
    by_cases hi : len ≤ i
    · rw [if_pos hi] at h
      exact absurd h (by simp)
    · rw [if_neg hi] at h
      cases hC : compute_array_layout_part t len with
      | ok p =>
        obtain ⟨L, start⟩ := p
        rw [hC] at h
        simp only [rsUnwrap] at h
        simp only [RsOutcome.ok.injEq, Option.some.injEq] at h
        exact ⟨len, L, start, rfl, hi, hC, h.symm⟩
      | layoutError =>
        rw [hC] at h
        simp only [rsUnwrap] at h
        exact absurd h (by simp)
      | panic m =>
        rw [hC] at h
        simp only [rsUnwrap] at h
        exact absurd h (by simp)
      | ub =>
        rw [hC] at h
        simp only [rsUnwrap] at h
        exact absurd h (by simp)
  | layoutError => rw [hL] at h; exact absurd h (by simp)
  | panic m => rw [hL] at h; exact absurd h (by simp)
  | ub => rw [hL] at h; exact absurd h (by simp)

/-- C5: writing through the reference `get_mut(i)` returns and then
reading `get(i)` yields exactly the written value, and every other
index reads unchanged.  Zero-sized element types are excluded: all
their slots share one byte offset (and in Rust all their values are
indistinguishable anyway). -/
theorem c5_element_roundtrip (T : Type) (t : RustType) (hes : 1 ≤ t.size)
    (s : RecState T) (i j off : Nat) (v : T)
    (hmut : OwnedInstanceRef.get_mut t s i = .ok (some off)) (hne : j ≠ i) :
    OwnedInstanceRef.get t (writeThrough s off v) i = .ok (some v) ∧
    OwnedInstanceRef.get t (writeThrough s off v) j = OwnedInstanceRef.get t s j := by
  obtain ⟨len, L, start, hL, hi, hC, hoff⟩ := get_mut_ok_elim hmut
  have h6 : 6 ≤ start := compute_array_layout_part_offset hC
  have hlen4 := readAt_of_length_ok hL
  have hoff4 : off ≠ 4 := by omega
  have hlen4w : (writeThrough s off v).readAt 4 = some (.u16 len) := by
    unfold writeThrough
    rw [readAt_writeAt_ne _ _ _ _ hoff4]
    exact hlen4
  have hLw : OwnedInstanceRef.length (writeThrough s off v) = .ok len :=
    length_of_readAt hlen4w
  subst hoff
  constructor
  · refine get_eval_some hLw hi hC ?_
    unfold writeThrough
    exact readAt_writeAt_same _ _ _
  · refine get_congr_read j hL hLw hC ?_
    unfold writeThrough
    refine readAt_writeAt_ne _ _ _ _ ?_
    intro hc
    have hm : i * t.size = j * t.size := by omega
    exact hne ((Nat.eq_of_mul_eq_mul_right hes hm).symm)

/-- Witness for C5: a two-element record, write 99 into slot 0, slot 1
unchanged. -/
theorem c5_element_roundtrip_witness :
    (1 : Nat) ≤ FieldValue.size ∧
    OwnedInstanceRef.get_mut FieldValue
      (⟨[(16, .elem 1), (8, .elem 0), (4, .u16 2), (0, .u32 5)]⟩ : RecState Nat) 0 =
      .ok (some 8) ∧
    (1 : Nat) ≠ 0 ∧
    (OwnedInstanceRef.get FieldValue
        (writeThrough ⟨[(16, .elem 1), (8, .elem 0), (4, .u16 2), (0, .u32 5)]⟩ 8 99) 0 =
        .ok (some 99) ∧
      OwnedInstanceRef.get FieldValue
          (writeThrough ⟨[(16, .elem 1), (8, .elem 0), (4, .u16 2), (0, .u32 5)]⟩ 8 99) 1 =
        OwnedInstanceRef.get FieldValue
          (⟨[(16, .elem 1), (8, .elem 0), (4, .u16 2), (0, .u32 5)]⟩ : RecState Nat) 1) :=
  ⟨by decide, by decide, by decide,
    c5_element_roundtrip Nat FieldValue (by decide)
      ⟨[(16, .elem 1), (8, .elem 0), (4, .u16 2), (0, .u32 5)]⟩ 0 1 8 99
      (by decide) (by decide)⟩

/-- C6: `get(i)` and `get_mut(i)` answer "absent" (`None`) exactly
when `i ≥ length()`; in particular `get(length())` and
`get(length() + 1)` are `None`.  An in-bounds index never answers
`None`, and for an out-of-bounds index both functions return before
computing any offset, so no out-of-range access happens. -/
theorem c6_bounds_check (T : Type) (t : RustType) (s : RecState T) (len i : Nat)
    (hlen : OwnedInstanceRef.length s = .ok len) :
    (OwnedInstanceRef.get t s i = .ok none ↔ len ≤ i) ∧
    (OwnedInstanceRef.get_mut t s i = .ok none ↔ len ≤ i) ∧
    OwnedInstanceRef.get t s len = .ok none ∧
    OwnedInstanceRef.get t s (len + 1) = .ok none ∧
    OwnedInstanceRef.get_mut t s len = .ok none ∧
    OwnedInstanceRef.get_mut t s (len + 1) = .ok none := by
  have hget : ∀ k, len ≤ k → OwnedInstanceRef.get t s k = .ok none := by
    intro k hk
    unfold OwnedInstanceRef.get
    rw [hlen]
    simp only []
    rw [if_pos hk]
  have hgetmut : ∀ k, len ≤ k → OwnedInstanceRef.get_mut t s k = .ok none := by
    intro k hk
    unfold OwnedInstanceRef.get_mut
    rw [hlen]
    simp only []
    rw [if_pos hk]
  have hget2 : ∀ k, ¬ len ≤ k → ¬ OwnedInstanceRef.get t s k = .ok none := by
    intro k hk hc
    unfold OwnedInstanceRef.get at hc
    rw [hlen] at hc
    simp only [] at hc
    rw [if_neg hk] at hc
    cases hC : compute_array_layout_part t len with
    | ok p =>
      obtain ⟨L, start⟩ := p
      rw [hC] at hc
      simp only [rsUnwrap] at hc
      cases hr : s.readAt (start + k * t.size) with
      | none => rw [hr] at hc; exact absurd hc (by simp)
      | some mv =>
        rw [hr] at hc
        cases mv with
        | u32 v => exact absurd hc (by simp)
        | u16 v => exact absurd hc (by simp)
        | elem v => exact absurd hc (by simp)
    | layoutError =>
      rw [hC] at hc
      simp only [rsUnwrap] at hc
      exact absurd hc (by simp)
    | panic m =>
      rw [hC] at hc
      simp only [rsUnwrap] at hc
      exact absurd hc (by simp)
    | ub =>
      rw [hC] at hc
      simp only [rsUnwrap] at hc
      exact absurd hc (by simp)
  have hgetmut2 : ∀ k, ¬ len ≤ k → ¬ OwnedInstanceRef.get_mut t s k = .ok none := by
    intro k hk hc
    unfold OwnedInstanceRef.get_mut at hc
    rw [hlen] at hc
    simp only [] at hc
    rw [if_neg hk] at hc
    cases hC : compute_array_layout_part t len with
    | ok p =>
      obtain ⟨L, start⟩ := p
      rw [hC] at hc
      simp only [rsUnwrap] at hc
      exact absurd hc (by simp)
    | layoutError =>
      rw [hC] at hc
      simp only [rsUnwrap] at hc
      exact absurd hc (by simp)
    | panic m =>
      rw [hC] at hc
      simp only [rsUnwrap] at hc
      exact absurd hc (by simp)
    | ub =>
      rw [hC] at hc
      simp only [rsUnwrap] at hc
      exact absurd hc (by simp)
  refine ⟨⟨fun hc => ?_, hget i⟩, ⟨fun hc => ?_, hgetmut i⟩,
    hget len (Nat.le_refl len), hget (len + 1) (by omega),
    hgetmut len (Nat.le_refl len), hgetmut (len + 1) (by omega)⟩
  · by_contra hk
    exact hget2 i hk hc
  · by_contra hk
    exact hgetmut2 i hk hc

/-- Witness for C6: a two-element record probed at index 3. -/
theorem c6_bounds_check_witness :
    OwnedInstanceRef.length (⟨[(4, .u16 2), (0, .u32 5)]⟩ : RecState Unit) = .ok 2 ∧
    ((OwnedInstanceRef.get FieldValue (⟨[(4, .u16 2), (0, .u32 5)]⟩ : RecState Unit) 3 =
          .ok none ↔ 2 ≤ 3) ∧
      (OwnedInstanceRef.get_mut FieldValue (⟨[(4, .u16 2), (0, .u32 5)]⟩ : RecState Unit) 3 =
          .ok none ↔ 2 ≤ 3) ∧
      OwnedInstanceRef.get FieldValue (⟨[(4, .u16 2), (0, .u32 5)]⟩ : RecState Unit) 2 =
        .ok none ∧
      OwnedInstanceRef.get FieldValue (⟨[(4, .u16 2), (0, .u32 5)]⟩ : RecState Unit) (2 + 1) =
        .ok none ∧
      OwnedInstanceRef.get_mut FieldValue (⟨[(4, .u16 2), (0, .u32 5)]⟩ : RecState Unit) 2 =
        .ok none ∧
      OwnedInstanceRef.get_mut FieldValue
          (⟨[(4, .u16 2), (0, .u32 5)]⟩ : RecState Unit) (2 + 1) = .ok none) :=
  ⟨by decide, c6_bounds_check Unit FieldValue ⟨[(4, .u16 2), (0, .u32 5)]⟩ 2 3 (by decide)⟩

/-- `filterMap` of the index projection over initializer-call events
recovers the index list. -/
theorem filterMap_initIdx_map (l : List Nat) :
    List.filterMap Event.initIdx (l.map Event.initCall) = l := by
  induction l with
  | nil => rfl
  | cons a l ih =>
    simp only [List.map_cons, List.filterMap_cons, Event.initIdx]
    rw [ih]

/-- The construction event list projects to exactly the indices
`0, 1, …, len-1` in order. -/
theorem events_filterMap (A B len : Nat) :
    List.filterMap Event.initIdx
      (Event.alloc A B :: (List.range len).map Event.initCall) = List.range len := by
  rw [List.filterMap_cons]
  exact filterMap_initIdx_map (List.range len)

/-- C7: during `new(id, length, init)` the initializer is called
exactly once per index, in strictly ascending order, and all calls
happen before the record is returned (they are the only events besides
the single allocation); afterwards each slot `i < length` reads back
exactly `init i`.  Zero-sized element types are excluded: all their
slots share one byte offset (and in Rust all their values are
indistinguishable anyway). -/
theorem c7_init_calls (T : Type) (t : RustType) (hv : t.valid) (hes : 1 ≤ t.size)
    (id0 length : Nat) (hlen : length < 65536) (init : Nat → T)
    (evs : List Event) (s : RecState T)
    (h : OwnedInstanceRef.new t id0 length init = (evs, .ok s)) :
    evs.filterMap Event.initIdx = List.range length ∧
    ∀ i, i < length → OwnedInstanceRef.get t s i = .ok (some (init i)) := by
  have ha := RustType.align_pos hv
  obtain ⟨harr, hext, hevs, hs⟩ := OwnedInstanceRef.new_ok_store ha h
  constructor
  · rw [hevs]
    exact events_filterMap _ _ _
  · intro i hi
    have hlenAcc := length_of_readAt (new_state_header ha h).2
    refine get_eval_some hlenAcc (by omega) (compute_array_layout_part_ok harr hext) ?_
    rw [hs]
    exact writeElems_readAt_in _ _ _ _ _ hes i hi

/-- Witness for C7: two elements initialized to `i + 10`. -/
theorem c7_init_calls_witness :
    FieldValue.valid ∧ (1 : Nat) ≤ FieldValue.size ∧ (2 : Nat) < 65536 ∧
    OwnedInstanceRef.new FieldValue 7 2 (fun i => i + 10) =
      ([.alloc 24 8, .initCall 0, .initCall 1],
        .ok ⟨[(16, .elem 11), (8, .elem 10), (4, .u16 2), (0, .u32 7)]⟩) ∧
    List.filterMap Event.initIdx [Event.alloc 24 8, .initCall 0, .initCall 1] =
      List.range 2 ∧
    OwnedInstanceRef.get FieldValue
        (⟨[(16, .elem 11), (8, .elem 10), (4, .u16 2), (0, .u32 7)]⟩ : RecState Nat) 1 =
      .ok (some 11) :=
  ⟨by decide, by decide, by decide, by decide,
    (c7_init_calls Nat FieldValue (by decide) (by decide) 7 2 (by decide) (fun i => i + 10)
      [.alloc 24 8, .initCall 0, .initCall 1]
      ⟨[(16, .elem 11), (8, .elem 10), (4, .u16 2), (0, .u32 7)]⟩ (by decide)).1,
    (c7_init_calls Nat FieldValue (by decide) (by decide) 7 2 (by decide) (fun i => i + 10)
      [.alloc 24 8, .initCall 0, .initCall 1]
      ⟨[(16, .elem 11), (8, .elem 10), (4, .u16 2), (0, .u32 7)]⟩ (by decide)).2 1
      (by decide)⟩

/-- C2: evidence of the `as_slice` offset bug at a concrete element
type of size 1 and alignment 1 with one element.  Construction places
the array at offset 6 (as `InstanceLayoutInfo::<T>::new` and
`compute_array_layout_part::<T>` both say), but `as_slice` passes
`FieldValue` instead of `T` to `compute_array_layout_part` (source
line 261) and so reads from offset 8, where nothing was written —
while `as_mut_slice` and `get`, which pass `T`, read the elements
correctly. -/
theorem c2_as_slice_offset_mismatch :
    InstanceLayoutInfo.new ⟨1, 1⟩ 1 = .ok ⟨⟨8, 4⟩, 0, 4, 6⟩ ∧
    compute_array_layout_part ⟨1, 1⟩ 1 = .ok (⟨7, 4⟩, 6) ∧
    compute_array_layout_part FieldValue 1 = .ok (⟨16, 8⟩, 8) ∧
    (OwnedInstanceRef.new ⟨1, 1⟩ 7 1 (fun i => i)).2 =
      .ok (⟨[(6, .elem 0), (4, .u16 1), (0, .u32 7)]⟩ : RecState Nat) ∧
    OwnedInstanceRef.as_slice ⟨1, 1⟩
      (⟨[(6, .elem 0), (4, .u16 1), (0, .u32 7)]⟩ : RecState Nat) = .ub ∧
    OwnedInstanceRef.as_mut_slice ⟨1, 1⟩
      (⟨[(6, .elem 0), (4, .u16 1), (0, .u32 7)]⟩ : RecState Nat) = .ok [0] ∧
    OwnedInstanceRef.get ⟨1, 1⟩
      (⟨[(6, .elem 0), (4, .u16 1), (0, .u32 7)]⟩ : RecState Nat) 0 = .ok (some 0) := by
  refine ⟨by decide, by decide, by decide, by decide, by decide, by decide, by decide⟩

/-- C3 counterexample: a valid element type of size `2^50` and
alignment 1 at length 65535 makes `length * sizeof(T)` overflow
`usize`; construction panics at the overflow assertion instead of
returning a `LayoutError`. -/
theorem c3_overflow_panics_counterexample :
    (OwnedInstanceRef.new (⟨1125899906842624, 1⟩ : RustType) 0 65535 (fun _ => ())).2 =
      .panic "Overflowed usize with the number of elements" ∧
    (OwnedInstanceRef.new (⟨1125899906842624, 1⟩ : RustType) 0 65535 (fun _ => ())).2 ≠
      .layoutError ∧
    (⟨1125899906842624, 1⟩ : RustType).valid ∧
    usizeSize ≤ 65535 * (⟨1125899906842624, 1⟩ : RustType).size := by
  refine ⟨by decide, by decide, by decide, by decide⟩


/-- C3 (amended): the three overflow regimes of construction.  When
`length * sizeof(T)` overflows `usize`, `new` panics at the first
overflow assertion; when it fits `usize` but exceeds `isize::MAX`, it
panics at the second — in both cases before any allocation.  When it
fits `isize::MAX` but extending the 6-byte header with the array would
push the padded size past `isize::MAX` (adjusted by the overall
alignment), `new` returns a `LayoutError` to the caller, again with no
allocation performed; and in general a `LayoutError` result is always
produced before any allocation event. -/
theorem c3_overflow_behavior (T : Type) (t : RustType) (hv : t.valid) (id0 length : Nat)
    (init : Nat → T) (hlen : length ≤ 65535) :
    (usizeSize ≤ length * t.size →
      OwnedInstanceRef.new t id0 length init =
        ([], .panic "Overflowed usize with the number of elements")) ∧
    (length * t.size < usizeSize → isizeMax < length * t.size →
      OwnedInstanceRef.new t id0 length init =
        ([], .panic "Overflowed isize with the number of elements")) ∧
    (length * t.size ≤ isizeMax →
      t.size * length ≤ isizeMax - (t.align - 1) →
      isizeMax - (max 4 t.align - 1) < roundUp 6 t.align + t.size * length →
      OwnedInstanceRef.new t id0 length init = ([], .layoutError)) ∧
    ((OwnedInstanceRef.new t id0 length init).2 = .layoutError →
      (OwnedInstanceRef.new t id0 length init).1 = []) := by
  have hlenIs : ¬¬ length ≤ isizeMax := by
    intro hc
    apply hc
    show length ≤ 9223372036854775807
    omega
  refine ⟨?_, ?_, ?_, ?_⟩
  · intro hov
    unfold OwnedInstanceRef.new
    rw [if_neg hlenIs, if_pos (show ¬ length * t.size < usizeSize by omega)]
  · intro h1 h2
    unfold OwnedInstanceRef.new
    rw [if_neg hlenIs, if_neg (show ¬¬ length * t.size < usizeSize from fun hc => hc h1),
      if_pos (show ¬ length * t.size ≤ isizeMax by omega)]
  · intro h1 h2 h3
    have ha := RustType.align_pos hv
    have hcond : t.size = 0 ∨ length ≤ (isizeMax - (t.align - 1)) / t.size := by
      by_cases hz : t.size = 0
      · exact Or.inl hz
      · refine Or.inr ?_
        rw [Nat.le_div_iff_mul_le (Nat.pos_of_ne_zero hz)]
        calc length * t.size = t.size * length := Nat.mul_comm _ _
          _ ≤ isizeMax - (t.align - 1) := h2
    have harr : Layout.array t length = some ⟨t.size * length, t.align⟩ := by
      unfold Layout.array
      rw [if_pos hcond]
    have hext : Layout.extend ⟨6, 4⟩ ⟨t.size * length, t.align⟩ = none := by
      rw [extend_header_array t length ha, if_neg]
      rintro ⟨-, hle⟩
      omega
    have hinfo : InstanceLayoutInfo.new t length = .layoutError := by
      unfold InstanceLayoutInfo.new
      rw [base_layout_eq]
      simp only []
      rw [id_layout_eq]
      simp only []
      rw [extend_base_id]
      simp only []
      rw [length_layout_eq]
      simp only []
      rw [extend_id_length]
      simp only []
      rw [harr]
      simp only []
      rw [hext]
    have husize : length * t.size < usizeSize := by
      have h1n : length * t.size ≤ 9223372036854775807 := h1
      show length * t.size < 18446744073709551616
      omega
    unfold OwnedInstanceRef.new
    rw [if_neg hlenIs,
      if_neg (show ¬¬ length * t.size < usizeSize from fun hc => hc husize),
      if_neg (show ¬¬ length * t.size ≤ isizeMax from fun hc => hc h1),
      hinfo]
  · unfold OwnedInstanceRef.new
    split
    case isTrue => intro _; rfl
    case isFalse =>
      split
      case isTrue => intro _; rfl
      case isFalse =>
        split
        case isTrue => intro _; rfl
        case isFalse =>
          split
          · intro _; rfl
          · intro _; rfl
          · intro _; rfl
          · split
            case isTrue => intro hc; exact absurd hc (by simp)
            case isFalse =>
              split
              case isTrue => intro hc; exact absurd hc (by simp)
              case isFalse =>
                split
                case isTrue => intro hc; exact absurd hc (by simp)
                case isFalse => intro hc; exact absurd hc (by simp)

/-- Witness for the amended C3, one concrete input per overflow
regime: size `2^50` at length 65535 overflows `usize`; size `2^48` at
length 65535 fits `usize` but exceeds `isize::MAX`; size
`isize::MAX - 5` at length 1 passes the assertions but overflows the
layout extend and returns `LayoutError` with no allocation. -/
theorem c3_overflow_behavior_witness :
    OwnedInstanceRef.new (⟨1125899906842624, 1⟩ : RustType) 0 65535 (fun _ => ()) =
      ([], .panic "Overflowed usize with the number of elements") ∧
    OwnedInstanceRef.new (⟨281474976710656, 1⟩ : RustType) 0 65535 (fun _ => ()) =
      ([], .panic "Overflowed isize with the number of elements") ∧
    OwnedInstanceRef.new (⟨9223372036854775802, 1⟩ : RustType) 0 1 (fun _ => ()) =
      ([], .layoutError) :=
  ⟨(c3_overflow_behavior Unit ⟨1125899906842624, 1⟩ (by decide) 0 65535 (fun _ => ())
      (by decide)).1 (by decide),
    (c3_overflow_behavior Unit ⟨281474976710656, 1⟩ (by decide) 0 65535 (fun _ => ())
      (by decide)).2.1 (by decide) (by decide),
    (c3_overflow_behavior Unit ⟨9223372036854775802, 1⟩ (by decide) 0 1 (fun _ => ())
      (by decide)).2.2.1 (by decide) (by decide) (by decide)⟩
